import Mathlib

/-!
A shallow embedding of the `umbled` IRC presence bot (`umbled.go`) in Lean 4,
together with theorems about its operations.

The program keeps a single IRC connection alive: a polling loop that
reconnects when disconnected, answers PINGs, records every operational
failure into an in-memory error log, and flushes that log to the configured
channels as chat messages.  The external IRC client library is modelled by
explicit outcome parameters (connect/register/read/pong/join/message
results), time by an integer number of nanoseconds, and the RFC3339
timestamp rendered by `addError` by an abstract string parameter.
-/

namespace Umbled

/-! ## Strings: the pieces of the Go standard library the program uses. -/

/-- ASCII whitespace recognised by Go `strings.TrimSpace` (`unicode.IsSpace`
restricted to the ASCII range, which is all the config format uses). -/
def isSpaceGo (c : Char) : Bool :=
  c = ' ' || c = '\t' || c = '\n' || c = '\r' || c = '\x0b' || c = '\x0c'

/-- `strings.TrimSpace` on a character list. -/
def trimChars (l : List Char) : List Char :=
  ((l.dropWhile isSpaceGo).reverse.dropWhile isSpaceGo).reverse

/-- `strings.TrimSpace`. -/
def trimS (s : String) : String := ⟨trimChars s.data⟩

/-- Split at the first `=`, if any: the char-list core of
`strings.SplitN(text, "=", 2)`. -/
def splitOnEq : List Char → Option (List Char × List Char)
  | [] => none
  | c :: cs =>
    if c = '=' then some ([], cs)
    else (splitOnEq cs).map (fun p => (c :: p.1, p.2))

/-- `strings.Split(s, ",")` on a character list. -/
def splitComma : List Char → List (List Char)
  | [] => [[]]
  | c :: cs =>
    if c = ',' then [] :: splitComma cs
    else
      match splitComma cs with
      | [] => [[c]]
      | p :: ps => (c :: p) :: ps

/-- Digits of a base-10 literal folded to its value. -/
def digitsVal (l : List Char) : Nat :=
  l.foldl (fun a d => a * 10 + (d.toNat - 48)) 0

/-- `strconv.ParseInt(s, 10, 64)`: optional sign, at least one decimal
digit, 64-bit signed range. -/
def goParseInt (s : String) : Except String Int :=
  match s.data with
  | [] => .error "invalid syntax"
  | c :: cs =>
    let signDigits : Bool × List Char :=
      if c = '-' then (true, cs)
      else if c = '+' then (false, cs)
      else (false, c :: cs)
    match signDigits with
    | (neg, digits) =>
      if digits = [] then .error "invalid syntax"
      else if digits.all Char.isDigit then
        let v : Int := if neg then -(digitsVal digits : Int) else (digitsVal digits : Int)
        if v < -(2 ^ 63) || 2 ^ 63 - 1 < v then .error "value out of range"
        else .ok v
      else .error "invalid syntax"

/-! ## Config parsing (`parseConfig`).

The file is modelled as the list of lines the `bufio.Scanner` yields.  The
key/value map is an association list with first-match lookup; Go map lookup
of a missing key yields `""`. -/

/-- The outcome of handling one config line. -/
inductive LineParse where
  | skip
  | malformed (text : String)
  | blankKey (text : String)
  | kv (key value : String)
deriving DecidableEq, Repr

/-- One line of the config scanner loop: trim, skip blank and `#` lines,
split at the first `=`, trim key and value, reject a blank key. -/
def classifyLine (line : String) : LineParse :=
  let text := trimS line
  match text.data with
  | [] => .skip
  | c :: _ =>
    if c = '#' then .skip
    else
      match splitOnEq text.data with
      | none => .malformed text
      | some p =>
        let key := trimS ⟨p.1⟩
        let value := trimS ⟨p.2⟩
        if key = "" then .blankKey text else .kv key value

/-- The key of a well-formed `key=value` config line, if the line is one. -/
def lineKey (l : String) : Option String :=
  match classifyLine l with
  | .kv k _ => some k
  | _ => none

def hasKey (m : List (String × String)) (k : String) : Bool :=
  m.any (fun p => p.1 == k)

/-- Go map read `m[key]`: the stored value, or `""` when absent. -/
def getVal (m : List (String × String)) (k : String) : String :=
  match m.find? (fun p => p.1 == k) with
  | some p => p.2
  | none => ""

/-- The body of the scanner loop for one line. -/
def parseLine (m : List (String × String)) (line : String) :
    Except String (List (String × String)) :=
  match classifyLine line with
  | .skip => .ok m
  | .malformed text => .error ("malformed line: " ++ text)
  | .blankKey text => .error ("key is blank: " ++ text)
  | .kv key value =>
    if hasKey m key then .error ("duplicate key: " ++ key)
    else .ok (m ++ [(key, value)])

/-- The scanner loop over all lines. -/
def parseLines : List String → List (String × String) →
    Except String (List (String × String))
  | [], m => .ok m
  | line :: rest, m =>
    match parseLine m line with
    | .error e => .error e
    | .ok m2 => parseLines rest m2

/-- The channel loop of `parseConfig`: trim each comma-piece, skip the
empty ones, reject a piece not starting with `#`, keep the rest in order. -/
def parseChannels : List String → List String → Except String (List String)
  | [], acc => .ok acc
  | c0 :: rest, acc =>
    let c := trimS c0
    match c.data with
    | [] => parseChannels rest acc
    | ch :: _ =>
      if ch = '#' then parseChannels rest (acc ++ [c])
      else .error ("malformed channel name: " ++ c)

structure Config where
  channels : List String
  nick : String
  serverHost : String
  serverPort : Int
deriving DecidableEq, Repr

/-- The comma-pieces the channel loop of `parseConfig` ranges over, for
key map `m`. -/
def channelPieces (m : List (String × String)) : List String :=
  (splitComma (getVal m "channels").data).map (fun l => (⟨l⟩ : String))

/-- A comma-piece that triggers the malformed-channel error: nonempty
after trimming and not starting with `#`. -/
def badChannelPiece (piece : String) : Bool :=
  match (trimS piece).data with
  | [] => false
  | c :: _ => !(c = '#')

/-- The second half of `parseConfig`: build the `Config` from the key map,
checking channels, nick, server-host and server-port in source order. -/
def configFromMap (m : List (String × String)) : Except String Config :=
  match parseChannels (channelPieces m) [] with
  | .error e => .error e
  | .ok chans =>
    if chans = [] then .error "you must specify at least one channel"
    else if getVal m "nick" = "" then .error "you must specify a nick"
    else if getVal m "server-host" = "" then .error "you must specify a server-host"
    else
      match goParseInt (getVal m "server-port") with
      | .error e => .error ("invalid server-port: " ++ e)
      | .ok p => .ok ⟨chans, getVal m "nick", getVal m "server-host", p⟩

/-- `parseConfig`, on the scanned lines of the file. -/
def parseConfig (lines : List String) : Except String Config :=
  match parseLines lines [] with
  | .error e => .error e
  | .ok m => configFromMap m

/-! ## Session state and its helpers. -/

/-- `state`: last-activity timestamp (nanoseconds) and the pending error
log. -/
structure State where
  lastActivityTime : Int
  errors : List String
deriving DecidableEq, Repr

/-- `waitPeriod = 15 * time.Minute`, in nanoseconds. -/
def waitPeriod : Int := 15 * 60 * 1000000000

/-- `state.addError`: append one entry `<timestamp>: <message>` to the
log.  `ts` stands for `time.Now().Format(time.RFC3339)` and `msg` for the
`fmt.Sprintf`-formatted message. -/
def addError (s : State) (ts msg : String) : State :=
  { s with errors := s.errors ++ [ts ++ ": " ++ msg] }

/-- `state.shouldGiveUp`: `time.Now().Sub(s.lastActivityTime) > waitPeriod`. -/
def shouldGiveUp (now : Int) (s : State) : Bool :=
  decide (now - s.lastActivityTime > waitPeriod)

/-- An inbound IRC message: its `Command` field and the string `%s`
renders it to. -/
structure Message where
  command : String
  rendered : String
deriving DecidableEq, Repr

/-! ## Flushing the error log (`sendMessages`).

`deliver ch e` is the outcome of `c.Message(ch, e)`: `none` on success,
`some err` on failure.  Besides the final state and the returned error the
model also records the list of successful deliveries, in order. -/

/-- The inner loop of `sendMessages` for one channel: `for i, e := range
s.errors`.  `es` is the part of the ranged-over log not yet sent and `i`
its starting index; on a failure the log is cut to `s.errors[i:]`. -/
def sendLoop (deliver : String → String → Option String) (now : Int) (ch : String) :
    List String → Nat → State → List (String × String) →
    State × List (String × String) × Option String
  | [], _, s, sent => (s, sent, none)
  | e :: rest, i, s, sent =>
    match deliver ch e with
    | some err => ({ s with errors := s.errors.drop i }, sent, some err)
    | none =>
      sendLoop deliver now ch rest (i + 1)
        { s with lastActivityTime := now } (sent ++ [(ch, e)])

/-- The outer loop of `sendMessages` over the channels; on full success
the log is cleared (`s.errors = nil`). -/
def sendMessagesAux (deliver : String → String → Option String) (now : Int) :
    List String → State → List (String × String) →
    State × List (String × String) × Option String
  | [], s, sent => ({ s with errors := [] }, sent, none)
  | ch :: chs, s, sent =>
    match sendLoop deliver now ch s.errors 0 s sent with
    | (s2, sent2, some err) => (s2, sent2, some err)
    | (s2, sent2, none) => sendMessagesAux deliver now chs s2 sent2

/-- `sendMessages(conf, c, s)`. -/
def sendMessages (channels : List String) (deliver : String → String → Option String)
    (now : Int) (s : State) : State × List (String × String) × Option String :=
  sendMessagesAux deliver now channels s []

/-- Every (channel, entry) delivery of a full flush: channels outer,
entries inner, both in order. -/
def allDeliveries (chs es : List String) : List (String × String) :=
  match chs with
  | [] => []
  | ch :: rest => es.map (fun e => (ch, e)) ++ allDeliveries rest es

/-! ## Connecting (`connect`). -/

/-- `irc.ReplyWelcome` (RPL_WELCOME). -/
def replyWelcome : String := "001"

/-- Outcome of `connect`, carrying the channel-join attempts issued in
order.  `blocked` marks a read stream exhausted before a welcome or an
error: the real loop would still be waiting on `ReadMessage`. -/
inductive ConnectResult where
  | ok (attempts : List String)
  | err (e : String) (attempts : List String)
  | blocked
deriving DecidableEq, Repr

/-- The join loop after the welcome reply: join every configured channel
in order, failing fast on the first join failure. -/
def joinChannels (join : String → Option String) :
    List String → List String → ConnectResult
  | [], acc => .ok acc
  | ch :: chs, acc =>
    match join ch with
    | some e => .err ("error joining channel: " ++ ch ++ ": " ++ e) (acc ++ [ch])
    | none => joinChannels join chs (acc ++ [ch])

/-- The registration read loop of `connect`: read until a welcome reply
(then join) or an `ERROR` command or a read failure (then fail). -/
def connectLoop (join : String → Option String) (channels : List String) :
    List (Except String Message) → ConnectResult
  | [] => .blocked
  | .error e :: _ => .err e []
  | .ok m :: rest =>
    if m.command = replyWelcome then joinChannels join channels []
    else if m.command = "ERROR" then .err ("received ERROR: " ++ m.rendered) []
    else connectLoop join channels rest

/-- The environment `connect` runs against: the outcomes of `c.Connect`,
`c.Register`, the successive `c.ReadMessage` calls and each `c.Join`. -/
structure ConnEnv where
  connectErr : Option String
  registerErr : Option String
  reads : List (Except String Message)
  join : String → Option String

/-- `connect(conf, c)`. -/
def connect (channels : List String) (env : ConnEnv) : ConnectResult :=
  match env.connectErr with
  | some e => .err e []
  | none =>
    match env.registerErr with
    | some e => .err e []
    | none => connectLoop env.join channels env.reads

/-! ## One iteration of the main loop (`run`). -/

/-- A `ReadMessage` failure: its text and whether the error value is
`io.EOF`. -/
structure ReadError where
  text : String
  isEOF : Bool
deriving DecidableEq, Repr

/-- The outcomes of the external calls one loop iteration can make, plus
the iteration's clock reading and the timestamp string `addError` would
render. -/
structure Env where
  channels : List String
  isConnected : Bool
  connectOutcome : Option String
  readOutcome : Except ReadError Message
  pongErr : Option String
  deliver : String → String → Option String
  now : Int
  ts : String

/-- One iteration of the `for` body of `run` (after the 1-second sleep).
Returns the new state and whether `c.Close()` was called during the
iteration. -/
def runIteration (env : Env) (s : State) : State × Bool :=
  if env.isConnected = false then
    match env.connectOutcome with
    | some e => (addError s env.ts ("error connecting: " ++ e), true)
    | none => ({ s with lastActivityTime := env.now }, false)
  else
    match env.readOutcome with
    | .error re =>
      let s2 := addError s env.ts ("error reading: " ++ re.text)
      if shouldGiveUp env.now s2 || re.isEOF then (s2, true) else (s2, false)
    | .ok m =>
      let s2 : State := { s with lastActivityTime := env.now }
      if m.command = "ERROR" then
        (addError s2 env.ts ("got ERROR: " ++ m.rendered), true)
      else if ¬(m.command = "PING") then (s2, false)
      else
        match env.pongErr with
        | some e =>
          let s3 := addError s2 env.ts ("error PONGing: " ++ e)
          if shouldGiveUp env.now s3 then (s3, true) else (s3, false)
        | none =>
          let s3 : State := { s2 with lastActivityTime := env.now }
          match sendMessages env.channels env.deliver env.now s3 with
          | (s4, _, some e) =>
            let s5 := addError s4 env.ts ("error messaging: " ++ e)
            if shouldGiveUp env.now s5 then (s5, true) else (s5, false)
          | (s4, _, none) => (s4, false)

/-! ## Derived notions used to state the theorems. -/

/-- Whether a `ReadMessage` outcome is a success. -/
def readOk : Except ReadError Message → Bool
  | .ok _ => true
  | .error _ => false

/-- The keys `parseConfig` recognises. -/
def recognizedKeys : List String := ["channels", "nick", "server-host", "server-port"]

/-- Two key maps that agree on every key other than `k`, for both presence
and value. -/
def mapAgreesExcept (k : String) (m1 m2 : List (String × String)) : Prop :=
  ∀ q, q ≠ k → hasKey m1 q = hasKey m2 q ∧ getVal m1 q = getVal m2 q

instance {ε α : Type} [DecidableEq ε] [DecidableEq α] : DecidableEq (Except ε α) :=
  fun a b =>
  match a, b with
  | .error e1, .error e2 =>
    if h : e1 = e2 then isTrue (by rw [h]) else isFalse (fun hh => h (Except.error.inj hh))
  | .ok c1, .ok c2 =>
    if h : c1 = c2 then isTrue (by rw [h]) else isFalse (fun hh => h (Except.ok.inj hh))
  | .error _, .ok _ => isFalse (fun hh => Except.noConfusion hh)
  | .ok _, .error _ => isFalse (fun hh => Except.noConfusion hh)

/-! # Theorems

First a few helper lemmas, then one theorem per specification claim. -/

theorem addError_lastActivityTime (s : State) (ts msg : String) :
    (addError s ts msg).lastActivityTime = s.lastActivityTime := rfl

theorem shouldGiveUp_addError (now : Int) (s : State) (ts msg : String) :
    shouldGiveUp now (addError s ts msg) = shouldGiveUp now s := rfl

/-- C2: the give-up decision is true exactly when the elapsed time
`now - lastActivityTime` strictly exceeds the 15-minute wait period: it is
false at zero elapsed time, false at exactly 15 minutes, and true at 16
minutes. -/
theorem shouldGiveUp_strict_threshold (now : Int) (s : State) :
    (shouldGiveUp now s = true ↔ now - s.lastActivityTime > waitPeriod)
    ∧ (s.lastActivityTime = now → shouldGiveUp now s = false)
    ∧ (now - s.lastActivityTime = 15 * 60 * 1000000000 → shouldGiveUp now s = false)
    ∧ (now - s.lastActivityTime = 16 * 60 * 1000000000 → shouldGiveUp now s = true) := by
  refine ⟨by simp [shouldGiveUp], fun h => ?_, fun h => ?_, fun h => ?_⟩
  · simp only [shouldGiveUp, decide_eq_false_iff_not, not_lt, waitPeriod, gt_iff_lt]
    omega
  · simp only [shouldGiveUp, decide_eq_false_iff_not, not_lt, waitPeriod, gt_iff_lt]
    omega
  · simp only [shouldGiveUp, decide_eq_true_eq, waitPeriod, gt_iff_lt]
    omega

/-- Witness for C2 at concrete inputs: elapsed 0, exactly 15 minutes, and
16 minutes. -/
theorem shouldGiveUp_strict_threshold_witness :
    shouldGiveUp 5 ⟨5, []⟩ = false
    ∧ shouldGiveUp (15 * 60 * 1000000000) ⟨0, []⟩ = false
    ∧ shouldGiveUp (16 * 60 * 1000000000) ⟨0, []⟩ = true :=
  ⟨(shouldGiveUp_strict_threshold 5 ⟨5, []⟩).2.1 rfl,
   (shouldGiveUp_strict_threshold (15 * 60 * 1000000000) ⟨0, []⟩).2.2.1 (by decide),
   (shouldGiveUp_strict_threshold (16 * 60 * 1000000000) ⟨0, []⟩).2.2.2 (by decide)⟩

/-- C5: `addError` appends exactly one entry, of shape
`<timestamp>: <formatted message>`: the log length grows by exactly one,
the previous entries are untouched, the new last entry is the formatted
one, and the rest of the state is unchanged. -/
theorem addError_appends_one (s : State) (ts msg : String) :
    (addError s ts msg).errors.length = s.errors.length + 1
    ∧ (addError s ts msg).errors.take s.errors.length = s.errors
    ∧ (addError s ts msg).errors.getLast? = some (ts ++ ": " ++ msg)
    ∧ (addError s ts msg).lastActivityTime = s.lastActivityTime := by
  refine ⟨by simp [addError], ?_, by simp [addError], rfl⟩
  simp [addError, List.take_left]

/-- C4: when the connection is up and the read fails, the iteration
records the error; an end-of-stream failure closes the connection
regardless of `lastActivityTime` (so the next iteration reconnects), while
a non-EOF failure closes it exactly when the give-up threshold is
exceeded. -/
theorem readError_close_policy (env : Env) (s : State) (re : ReadError)
    (hconn : env.isConnected = true) (hread : env.readOutcome = .error re) :
    (runIteration env s).1 = addError s env.ts ("error reading: " ++ re.text)
    ∧ (re.isEOF = true → (runIteration env s).2 = true)
    ∧ (re.isEOF = false → (runIteration env s).2 = shouldGiveUp env.now s) := by
  refine ⟨?_, fun hEOF => ?_, fun hEOF => ?_⟩
  · cases h : shouldGiveUp env.now s || re.isEOF <;>
      simp [runIteration, hconn, hread, shouldGiveUp_addError, h]
  · simp [runIteration, hconn, hread, shouldGiveUp_addError, hEOF]
  · cases h : shouldGiveUp env.now s <;>
      simp [runIteration, hconn, hread, shouldGiveUp_addError, h, hEOF]

/-- Witness for C4: an EOF read error closes the connection even though
the last activity was at the current instant. -/
theorem readError_close_policy_witness :
    (runIteration ⟨[], true, none, .error ⟨"EOF", true⟩, none, fun _ _ => none, 0, "t"⟩
      ⟨0, []⟩).2 = true
    ∧ shouldGiveUp 0 ⟨0, []⟩ = false :=
  ⟨(readError_close_policy
      ⟨[], true, none, .error ⟨"EOF", true⟩, none, fun _ _ => none, 0, "t"⟩
      ⟨0, []⟩ ⟨"EOF", true⟩ rfl rfl).2.1 rfl, by decide⟩

/-- C7: with the connection up, a message whose command is `ERROR` is
recorded in the log and the connection closed; a message whose command is
neither `ERROR` nor `PING` is ignored — only the activity time of the
successful read changes, no close, no reply. -/
theorem command_dispatch (env : Env) (s : State) (m : Message)
    (hconn : env.isConnected = true) (hread : env.readOutcome = .ok m) :
    (m.command = "ERROR" →
      runIteration env s
        = (⟨env.now, s.errors ++ [env.ts ++ ": got ERROR: " ++ m.rendered]⟩, true))
    ∧ (m.command ≠ "ERROR" → m.command ≠ "PING" →
      runIteration env s = ({ s with lastActivityTime := env.now }, false)) := by
  refine ⟨fun hcmd => ?_, fun h1 h2 => ?_⟩
  · have hs : env.ts ++ ": " ++ ("got ERROR: " ++ m.rendered)
        = env.ts ++ ": got ERROR: " ++ m.rendered := by
      rw [← String.append_assoc, String.append_assoc env.ts]; rfl
    simp [runIteration, hconn, hread, hcmd, addError, hs]
  · simp [runIteration, hconn, hread, h1, h2]

/-- Witness for C7: an `ERROR` message is logged with a close; a `NOTICE`
message is ignored. -/
theorem command_dispatch_witness :
    runIteration ⟨[], true, none, .ok ⟨"ERROR", "boom"⟩, none, fun _ _ => none, 7, "t"⟩
      ⟨0, ["old"]⟩ = (⟨7, ["old", "t: got ERROR: boom"]⟩, true)
    ∧ runIteration ⟨[], true, none, .ok ⟨"NOTICE", "x"⟩, none, fun _ _ => none, 7, "t"⟩
      ⟨0, ["old"]⟩ = (⟨7, ["old"]⟩, false) :=
  ⟨(command_dispatch _ ⟨0, ["old"]⟩ ⟨"ERROR", "boom"⟩ rfl rfl).1 rfl,
   (command_dispatch _ ⟨0, ["old"]⟩ ⟨"NOTICE", "x"⟩ rfl rfl).2 (by decide) (by decide)⟩

/-- C10 as stated fails: appending the well-formed unrecognized line
`foo=2` to a file that already holds `foo=1` turns a successful parse into
a duplicate-key error, so parsing does not succeed whenever it would
succeed without the added line. -/
theorem unknown_key_line_counterexample :
    parseConfig ["channels=#a", "nick=bot", "server-host=h", "server-port=6667", "foo=1"]
      = .ok ⟨["#a"], "bot", "h", 6667⟩
    ∧ lineKey "foo=2" = some "foo"
    ∧ "foo" ∉ recognizedKeys
    ∧ parseConfig ["channels=#a", "nick=bot", "server-host=h", "server-port=6667", "foo=1", "foo=2"]
      = .error "duplicate key: foo" :=
  ⟨by decide, by decide, by decide, by decide⟩

/-! ## The flush loops: exact characterisations of `sendLoop` and
`sendMessagesAux` on all-success and first-failure delivery patterns. -/

theorem sendLoop_all_success (deliver : String → String → Option String) (now : Int)
    (ch : String) (es : List String) :
    ∀ (i : Nat) (s : State) (sent : List (String × String)),
    (∀ e ∈ es, deliver ch e = none) →
    sendLoop deliver now ch es i s sent
      = ({ s with lastActivityTime := (if es.isEmpty then s.lastActivityTime else now) },
         sent ++ es.map (fun e => (ch, e)), none) := by
  induction es with
  | nil => intro i s sent _; simp [sendLoop]
  | cons e rest ih =>
    intro i s sent h
    have he : deliver ch e = none := h e (by simp)
    have hih := ih (i + 1) { s with lastActivityTime := now } (sent ++ [(ch, e)])
      (fun x hx => h x (by simp [hx]))
    simp [sendLoop, he, hih]

theorem sendLoop_first_failure (deliver : String → String → Option String) (now : Int)
    (ch : String) (es1 : List String) :
    ∀ (ek : String) (es2 : List String) (err : String) (i : Nat) (s : State)
      (sent : List (String × String)),
    (∀ e ∈ es1, deliver ch e = none) →
    deliver ch ek = some err →
    sendLoop deliver now ch (es1 ++ ek :: es2) i s sent
      = ({ s with
             errors := s.errors.drop (i + es1.length),
             lastActivityTime := (if es1.isEmpty then s.lastActivityTime else now) },
         sent ++ es1.map (fun e => (ch, e)), some err) := by
  induction es1 with
  | nil => intro ek es2 err i s sent _ hek; simp [sendLoop, hek]
  | cons e rest ih =>
    intro ek es2 err i s sent h hek
    have he : deliver ch e = none := h e (by simp)
    have hih := ih ek es2 err (i + 1) { s with lastActivityTime := now } (sent ++ [(ch, e)])
      (fun x hx => h x (by simp [hx])) hek
    have harith : i + 1 + rest.length = i + (rest.length + 1) := by omega
    simp [sendLoop, he, hih, harith]

theorem sendMessagesAux_all_success (deliver : String → String → Option String)
    (now : Int) (chs : List String) :
    ∀ (s : State) (sent : List (String × String)),
    (∀ ch ∈ chs, ∀ e ∈ s.errors, deliver ch e = none) →
    sendMessagesAux deliver now chs s sent
      = ({ s with
             errors := [],
             lastActivityTime :=
               (if chs.isEmpty || s.errors.isEmpty then s.lastActivityTime else now) },
         sent ++ allDeliveries chs s.errors, none) := by
  induction chs with
  | nil => intro s sent _; simp [sendMessagesAux, allDeliveries]
  | cons ch chs ih =>
    intro s sent h
    have hch : ∀ e ∈ s.errors, deliver ch e = none := h ch (by simp)
    rw [sendMessagesAux,
      sendLoop_all_success deliver now ch s.errors 0 s sent hch]
    have hih := ih { s with lastActivityTime :=
        (if s.errors.isEmpty then s.lastActivityTime else now) }
      (sent ++ s.errors.map (fun e => (ch, e)))
      (fun c hc e he => h c (by simp [hc]) e he)
    cases hE : s.errors.isEmpty <;>
      cases hC : chs.isEmpty <;>
        simp_all [allDeliveries, sendMessagesAux]

theorem sendMessagesAux_first_failure (deliver : String → String → Option String)
    (now : Int) (pre : List String) :
    ∀ (ch : String) (post : List String) (es1 : List String) (ek : String)
      (es2 : List String) (err : String) (s : State) (sent : List (String × String)),
    s.errors = es1 ++ ek :: es2 →
    (∀ p ∈ pre, ∀ e ∈ s.errors, deliver p e = none) →
    (∀ e ∈ es1, deliver ch e = none) →
    deliver ch ek = some err →
    sendMessagesAux deliver now (pre ++ ch :: post) s sent
      = ({ s with
             errors := s.errors.drop es1.length,
             lastActivityTime :=
               (if pre.isEmpty && es1.isEmpty then s.lastActivityTime else now) },
         sent ++ allDeliveries pre s.errors ++ es1.map (fun e => (ch, e)), some err) := by
  induction pre with
  | nil =>
    intro ch post es1 ek es2 err s sent herr _ hes1 hek
    have hloop := sendLoop_first_failure deliver now ch es1 ek es2 err 0 s sent hes1 hek
    rw [List.nil_append, sendMessagesAux]
    rw [show (0 + es1.length) = es1.length by omega] at hloop
    rw [herr, hloop]
    simp [allDeliveries, herr, List.drop_left]
  | cons p pre ih =>
    intro ch post es1 ek es2 err s sent herr hpre hes1 hek
    have hp : ∀ e ∈ s.errors, deliver p e = none := hpre p (by simp)
    have hEne : s.errors.isEmpty = false := by
      rw [herr]; cases es1 <;> simp
    rw [List.cons_append, sendMessagesAux,
      sendLoop_all_success deliver now p s.errors 0 s sent hp, hEne]
    have hih := ih ch post es1 ek es2 err
      { s with lastActivityTime := now } (sent ++ s.errors.map (fun e => (p, e)))
      herr (fun q hq e he => hpre q (by simp [hq]) e he) hes1 hek
    simp only [Bool.if_false_left, Bool.and_eq_true] at hih ⊢
    simp [hih, hEne, allDeliveries]

/-- C1: during a flush (`sendMessages`), if the first delivery failure hits
log entry `k` — the log splitting as `es1 ++ ek :: es2` with
`k = es1.length` — the log afterwards holds exactly the entries `[k..N)`,
in their original order, and the failure is the returned value; if every
delivery to every channel succeeds, the log afterwards is empty and no
error is returned. -/
theorem sendMessages_flush_spec (channels : List String)
    (deliver : String → String → Option String) (now : Int) (s : State) :
    ((∀ ch ∈ channels, ∀ e ∈ s.errors, deliver ch e = none) →
      (sendMessages channels deliver now s).1.errors = []
      ∧ (sendMessages channels deliver now s).2.2 = none)
    ∧ (∀ pre ch post es1 ek es2 err,
        channels = pre ++ ch :: post →
        s.errors = es1 ++ ek :: es2 →
        (∀ p ∈ pre, ∀ e ∈ s.errors, deliver p e = none) →
        (∀ e ∈ es1, deliver ch e = none) →
        deliver ch ek = some err →
        (sendMessages channels deliver now s).1.errors = s.errors.drop es1.length
        ∧ (sendMessages channels deliver now s).1.errors = ek :: es2
        ∧ (sendMessages channels deliver now s).2.2 = some err) := by
  constructor
  · intro h
    rw [sendMessages, sendMessagesAux_all_success deliver now channels s [] h]
    exact ⟨rfl, rfl⟩
  · intro pre ch post es1 ek es2 err hchs herr hpredel hes1 hek
    rw [sendMessages, hchs,
      sendMessagesAux_first_failure deliver now pre ch post es1 ek es2 err s []
        herr hpredel hes1 hek]
    refine ⟨rfl, ?_, rfl⟩
    simp [herr, List.drop_left]

/-- Witness for C1: log `[e1, e2, e3]`, channels `[#a, #b]`, delivery of
`e2` to `#b` fails: the log retains `[e2, e3]` and the error is returned;
with an always-succeeding delivery the log is cleared. -/
theorem sendMessages_flush_spec_witness :
    ((sendMessages ["#a", "#b"]
        (fun ch e => if ch = "#b" ∧ e = "e2" then some "boom" else none)
        9 ⟨0, ["e1", "e2", "e3"]⟩).1.errors = ["e2", "e3"]
      ∧ (sendMessages ["#a", "#b"]
        (fun ch e => if ch = "#b" ∧ e = "e2" then some "boom" else none)
        9 ⟨0, ["e1", "e2", "e3"]⟩).2.2 = some "boom")
    ∧ ((sendMessages ["#a", "#b"] (fun _ _ => none) 9 ⟨0, ["e1", "e2", "e3"]⟩).1.errors = []
      ∧ (sendMessages ["#a", "#b"] (fun _ _ => none) 9 ⟨0, ["e1", "e2", "e3"]⟩).2.2 = none) :=
  ⟨((sendMessages_flush_spec ["#a", "#b"]
      (fun ch e => if ch = "#b" ∧ e = "e2" then some "boom" else none)
      9 ⟨0, ["e1", "e2", "e3"]⟩).2 ["#a"] "#b" [] ["e1"] "e2" ["e3"] "boom"
      rfl rfl (by decide) (by decide) (by decide)).2,
   (sendMessages_flush_spec ["#a", "#b"] (fun _ _ => none)
      9 ⟨0, ["e1", "e2", "e3"]⟩).1 (by decide)⟩

theorem mem_allDeliveries (q e : String) (chs es : List String) :
    (q, e) ∈ allDeliveries chs es ↔ q ∈ chs ∧ e ∈ es := by
  induction chs with
  | nil => simp [allDeliveries]
  | cons ch chs ih =>
    simp only [allDeliveries, List.mem_append, List.mem_map, Prod.mk.injEq, ih,
      List.mem_cons]
    constructor
    · rintro (⟨x, hx, hc, he⟩ | ⟨hc, he⟩)
      · exact ⟨Or.inl hc.symm, he ▸ hx⟩
      · exact ⟨Or.inr hc, he⟩
    · rintro ⟨hc | hc, he⟩
      · exact Or.inl ⟨e, he, hc.symm, rfl⟩
      · exact Or.inr ⟨hc, he⟩

/-- C9: with at least two configured channels, when a flush fails at entry
`k` (the log splitting as `es1 ++ ek :: es2`, `k = es1.length`) while
sending to a channel that is not the first, the entries before `k` are
removed from the log even though only the channels before the failing one
ever received them — the successful deliveries are exactly the full log to
each earlier channel plus the first `k` entries to the failing channel, so
the channels after it received nothing — and a subsequent fully successful
flush re-sends every retained entry to every channel, including the
channels that already received them in the earlier partial flush. -/
theorem sendMessages_partial_then_resend
    (deliver deliver2 : String → String → Option String) (now now2 : Int) (s : State)
    (pre : List String) (ch : String) (post : List String)
    (es1 : List String) (ek : String) (es2 : List String) (err : String)
    (_hpre : pre ≠ [])
    (herr : s.errors = es1 ++ ek :: es2)
    (hpredel : ∀ p ∈ pre, ∀ e ∈ s.errors, deliver p e = none)
    (hes1 : ∀ e ∈ es1, deliver ch e = none)
    (hek : deliver ch ek = some err)
    (hall2 : ∀ c e, deliver2 c e = none) :
    (sendMessages (pre ++ ch :: post) deliver now s).1.errors = ek :: es2
    ∧ (sendMessages (pre ++ ch :: post) deliver now s).2.1
        = allDeliveries pre s.errors ++ es1.map (fun e => (ch, e))
    ∧ (∀ p ∈ pre, ∀ e ∈ s.errors,
        (p, e) ∈ (sendMessages (pre ++ ch :: post) deliver now s).2.1)
    ∧ (sendMessages (pre ++ ch :: post) deliver2 now2
        (sendMessages (pre ++ ch :: post) deliver now s).1).1.errors = []
    ∧ (sendMessages (pre ++ ch :: post) deliver2 now2
        (sendMessages (pre ++ ch :: post) deliver now s).1).2.1
        = allDeliveries (pre ++ ch :: post) (ek :: es2)
    ∧ (∀ p ∈ pre, ∀ e ∈ ek :: es2,
        (p, e) ∈ (sendMessages (pre ++ ch :: post) deliver now s).2.1
        ∧ (p, e) ∈ (sendMessages (pre ++ ch :: post) deliver2 now2
            (sendMessages (pre ++ ch :: post) deliver now s).1).2.1) := by
  have hdrop : s.errors.drop es1.length = ek :: es2 := by
    rw [herr]; exact List.drop_left es1 (ek :: es2)
  have h1 := sendMessagesAux_first_failure deliver now pre ch post es1 ek es2 err s []
    herr hpredel hes1 hek
  rw [hdrop] at h1
  simp only [sendMessages, h1, List.nil_append]
  have h2 := sendMessagesAux_all_success deliver2 now2 (pre ++ ch :: post)
    { s with
        errors := ek :: es2,
        lastActivityTime := (if pre.isEmpty && es1.isEmpty then s.lastActivityTime else now) }
    [] (fun c _ e _ => hall2 c e)
  simp only [h2, List.nil_append]
  refine ⟨trivial, trivial, ?_, trivial, trivial, ?_⟩
  · intro p hp e he
    exact List.mem_append.2 (Or.inl ((mem_allDeliveries p e pre s.errors).2 ⟨hp, he⟩))
  · intro p hp e he
    refine ⟨List.mem_append.2 (Or.inl ?_), ?_⟩
    · exact (mem_allDeliveries p e pre s.errors).2 ⟨hp, by rw [herr]; simp [List.mem_cons, he]⟩
    · exact (mem_allDeliveries p e (pre ++ ch :: post) (ek :: es2)).2
        ⟨List.mem_append.2 (Or.inl hp), he⟩

/-- Witness for C9: channels `[#a, #b]`, log `[e1, e2]`, delivery of `e2`
to `#b` fails: `e1` is dropped, and the successful second flush re-sends
`e2` to `#a`, which already received it. -/
theorem sendMessages_partial_then_resend_witness :
    (sendMessages ["#a", "#b"]
        (fun c e => if c = "#b" ∧ e = "e2" then some "boom" else none) 5
        ⟨0, ["e1", "e2"]⟩).1.errors = ["e2"]
    ∧ (sendMessages ["#a", "#b"] (fun _ _ => none) 6
        (sendMessages ["#a", "#b"]
          (fun c e => if c = "#b" ∧ e = "e2" then some "boom" else none) 5
          ⟨0, ["e1", "e2"]⟩).1).1.errors = []
    ∧ ("#a", "e2") ∈ (sendMessages ["#a", "#b"]
        (fun c e => if c = "#b" ∧ e = "e2" then some "boom" else none) 5
        ⟨0, ["e1", "e2"]⟩).2.1
    ∧ ("#a", "e2") ∈ (sendMessages ["#a", "#b"] (fun _ _ => none) 6
        (sendMessages ["#a", "#b"]
          (fun c e => if c = "#b" ∧ e = "e2" then some "boom" else none) 5
          ⟨0, ["e1", "e2"]⟩).1).2.1 := by
  have h := sendMessages_partial_then_resend
    (fun c e => if c = "#b" ∧ e = "e2" then some "boom" else none) (fun _ _ => none)
    5 6 ⟨0, ["e1", "e2"]⟩ ["#a"] "#b" [] ["e1"] "e2" [] "boom"
    (by decide) rfl (by decide) (by decide) (by decide) (fun _ _ => rfl)
  have hmem := h.2.2.2.2.2 "#a" (by decide) "e2" (by decide)
  exact ⟨h.1, h.2.2.2.1, hmem.1, hmem.2⟩

/-! ## Activity-time bookkeeping: where the loops set `lastActivityTime`. -/

theorem sendLoop_last_shape (deliver : String → String → Option String) (now : Int)
    (ch : String) (es : List String) :
    ∀ (i : Nat) (s : State) (sent : List (String × String)),
    ∃ new s2 r, sendLoop deliver now ch es i s sent = (s2, sent ++ new, r)
      ∧ s2.lastActivityTime = (if new.isEmpty then s.lastActivityTime else now) := by
  induction es with
  | nil => intro i s sent; exact ⟨[], s, none, by simp [sendLoop], by simp⟩
  | cons e rest ih =>
    intro i s sent
    cases hde : deliver ch e with
    | some err =>
      refine ⟨[], { s with errors := s.errors.drop i }, some err,
        by simp [sendLoop, hde], by simp⟩
    | none =>
      obtain ⟨new, s2, r, heq, hlast⟩ :=
        ih (i + 1) { s with lastActivityTime := now } (sent ++ [(ch, e)])
      refine ⟨(ch, e) :: new, s2, r, ?_, ?_⟩
      · simp [sendLoop, hde, heq]
      · rw [hlast]; cases new <;> simp

theorem sendMessagesAux_last_shape (deliver : String → String → Option String)
    (now : Int) (chs : List String) :
    ∀ (s : State) (sent : List (String × String)),
    ∃ new s2 r, sendMessagesAux deliver now chs s sent = (s2, sent ++ new, r)
      ∧ s2.lastActivityTime = (if new.isEmpty then s.lastActivityTime else now) := by
  induction chs with
  | nil =>
    intro s sent
    exact ⟨[], { s with errors := [] }, none, by simp [sendMessagesAux], by simp⟩
  | cons ch chs ih =>
    intro s sent
    obtain ⟨new1, s1, r1, heq1, hlast1⟩ := sendLoop_last_shape deliver now ch s.errors 0 s sent
    cases r1 with
    | some err =>
      refine ⟨new1, s1, some err, ?_, hlast1⟩
      simp [sendMessagesAux, heq1]
    | none =>
      obtain ⟨new2, s2, r2, heq2, hlast2⟩ := ih s1 (sent ++ new1)
      refine ⟨new1 ++ new2, s2, r2, ?_, ?_⟩
      · simp [sendMessagesAux, heq1, heq2, List.append_assoc]
      · rw [hlast2, hlast1]
        cases new1 <;> cases new2 <;> simp

/-- C6: `lastActivityTime` is set to the iteration's clock reading exactly
when a network operation succeeds — on a successful connect or a
successful read (the pong and per-delivery successes that can follow a
successful read re-set it to the same instant) — and is left unchanged
when the operation fails; within a flush it is updated exactly when at
least one per-channel delivery succeeded; and it is the sole state input
of the give-up decision. -/
theorem lastActivityTime_policy (env : Env) (s : State) :
    ((runIteration env s).1.lastActivityTime
      = if (!env.isConnected && env.connectOutcome.isNone)
            || (env.isConnected && readOk env.readOutcome)
        then env.now else s.lastActivityTime)
    ∧ (∀ (channels : List String) (deliver : String → String → Option String)
        (now : Int) (t : State),
        (sendMessages channels deliver now t).1.lastActivityTime
          = if (sendMessages channels deliver now t).2.1.isEmpty
            then t.lastActivityTime else now)
    ∧ (∀ (now : Int) (t u : State), t.lastActivityTime = u.lastActivityTime →
        shouldGiveUp now t = shouldGiveUp now u) := by
  refine ⟨?_, ?_, ?_⟩
  · cases hc : env.isConnected with
    | false =>
      cases ho : env.connectOutcome with
      | some e => simp [runIteration, hc, ho, addError]
      | none => simp [runIteration, hc, ho]
    | true =>
      cases hr : env.readOutcome with
      | error re =>
        simp [runIteration, hc, hr, addError, readOk]
        split <;> rfl
      | ok m =>
        by_cases hcmd : m.command = "ERROR"
        · simp [runIteration, hc, hr, hcmd, addError, readOk]
        · by_cases hping : m.command = "PING"
          · cases hp : env.pongErr with
            | some e =>
              simp [runIteration, hc, hr, hcmd, hping, hp, addError, readOk]
              split <;> rfl
            | none =>
              obtain ⟨new, s2, r, heq, hlast⟩ :=
                sendMessagesAux_last_shape env.deliver env.now env.channels
                  { s with lastActivityTime := env.now } []
              have hs2 : s2.lastActivityTime = env.now := by
                rw [hlast]; cases new <;> simp
              cases r with
              | some e =>
                simp [runIteration, hc, hr, hcmd, hping, hp, sendMessages, heq,
                  addError, readOk, hs2]
                split <;> rfl
              | none =>
                simp [runIteration, hc, hr, hcmd, hping, hp, sendMessages, heq,
                  readOk, hs2]
          · simp [runIteration, hc, hr, hcmd, hping, readOk]
  · intro channels deliver now t
    obtain ⟨new, s2, r, heq, hlast⟩ := sendMessagesAux_last_shape deliver now channels t []
    simp only [sendMessages, heq, List.nil_append]
    exact hlast
  · intro now t u h
    simp [shouldGiveUp, h]

/-- Witness for C6: a successful connect stamps the clock reading; states
with equal activity times decide give-up identically. -/
theorem lastActivityTime_policy_witness :
    (runIteration ⟨[], false, none, .error ⟨"x", false⟩, none, fun _ _ => none, 3, "t"⟩
      ⟨1, []⟩).1.lastActivityTime = 3
    ∧ shouldGiveUp 9 ⟨2, ["a"]⟩ = shouldGiveUp 9 ⟨2, []⟩ := by
  have h := lastActivityTime_policy
    ⟨[], false, none, .error ⟨"x", false⟩, none, fun _ _ => none, 3, "t"⟩ ⟨1, []⟩
  exact ⟨by simpa using h.1, h.2.2 9 ⟨2, ["a"]⟩ ⟨2, []⟩ rfl⟩

/-! ## The connect protocol. -/

theorem joinChannels_ok (join : String → Option String) (chs : List String) :
    ∀ (acc attempts : List String), joinChannels join chs acc = .ok attempts →
    attempts = acc ++ chs ∧ ∀ ch ∈ chs, join ch = none := by
  induction chs with
  | nil =>
    intro acc attempts h
    simp only [joinChannels, ConnectResult.ok.injEq] at h
    simp [h]
  | cons ch chs ih =>
    intro acc attempts h
    cases hj : join ch with
    | some e => simp [joinChannels, hj] at h
    | none =>
      simp only [joinChannels, hj] at h
      obtain ⟨h1, h2⟩ := ih (acc ++ [ch]) attempts h
      refine ⟨by simp [h1], ?_⟩
      intro c hc
      rcases List.mem_cons.1 hc with rfl | hc
      · exact hj
      · exact h2 c hc

theorem joinChannels_err (join : String → Option String) (chs : List String) :
    ∀ (acc : List String) (e : String) (attempts : List String),
    joinChannels join chs acc = .err e attempts →
    ∃ pre ch post, chs = pre ++ ch :: post ∧ attempts = acc ++ pre ++ [ch]
      ∧ (∀ p ∈ pre, join p = none) ∧ ∃ je, join ch = some je := by
  induction chs with
  | nil => intro acc e attempts h; simp [joinChannels] at h
  | cons ch chs ih =>
    intro acc e attempts h
    cases hj : join ch with
    | some je =>
      simp only [joinChannels, hj, ConnectResult.err.injEq] at h
      exact ⟨[], ch, chs, by simp, by simp [← h.2], by simp, je, hj⟩
    | none =>
      simp only [joinChannels, hj] at h
      obtain ⟨pre, c, post, h1, h2, h3, h4⟩ := ih (acc ++ [ch]) e attempts h
      refine ⟨ch :: pre, c, post, by simp [h1], by simp [h2], ?_, h4⟩
      intro p hp
      rcases List.mem_cons.1 hp with rfl | hp
      · exact hj
      · exact h3 p hp

theorem connectLoop_ok (join : String → Option String) (chs : List String) :
    ∀ (reads : List (Except String Message)) (attempts : List String),
    connectLoop join chs reads = .ok attempts →
    attempts = chs ∧ ∀ ch ∈ chs, join ch = none := by
  intro reads
  induction reads with
  | nil => intro attempts h; simp [connectLoop] at h
  | cons r rest ih =>
    intro attempts h
    cases r with
    | error e => simp [connectLoop] at h
    | ok m =>
      by_cases hw : m.command = replyWelcome
      · rw [connectLoop, if_pos hw] at h
        have := joinChannels_ok join chs [] attempts h
        simpa using this
      · by_cases he : m.command = "ERROR"
        · rw [connectLoop, if_neg hw, if_pos he] at h
          exact ConnectResult.noConfusion h
        · rw [connectLoop, if_neg hw, if_neg he] at h
          exact ih attempts h

theorem connectLoop_err (join : String → Option String) (chs : List String) :
    ∀ (reads : List (Except String Message)) (e : String) (attempts : List String),
    connectLoop join chs reads = .err e attempts →
    attempts = [] ∨ ∃ pre ch post, chs = pre ++ ch :: post ∧ attempts = pre ++ [ch]
      ∧ (∀ p ∈ pre, join p = none) ∧ ∃ je, join ch = some je := by
  intro reads
  induction reads with
  | nil => intro e attempts h; simp [connectLoop] at h
  | cons r rest ih =>
    intro e attempts h
    cases r with
    | error e2 =>
      simp only [connectLoop, ConnectResult.err.injEq] at h
      exact Or.inl h.2.symm
    | ok m =>
      by_cases hw : m.command = replyWelcome
      · rw [connectLoop, if_pos hw] at h
        obtain ⟨pre, c, post, h1, h2, h3, h4⟩ := joinChannels_err join chs [] e attempts h
        exact Or.inr ⟨pre, c, post, h1, by simpa using h2, h3, h4⟩
      · by_cases he : m.command = "ERROR"
        · rw [connectLoop, if_neg hw, if_pos he] at h
          cases h
          exact Or.inl rfl
        · rw [connectLoop, if_neg hw, if_neg he] at h
          exact ih e attempts h

theorem connectLoop_skip (join : String → Option String) (chs : List String)
    (pres : List (Except String Message)) :
    ∀ (rest : List (Except String Message)),
    (∀ r ∈ pres, ∃ m, r = .ok m ∧ m.command ≠ replyWelcome ∧ m.command ≠ "ERROR") →
    connectLoop join chs (pres ++ rest) = connectLoop join chs rest := by
  induction pres with
  | nil => intro rest _; rfl
  | cons r pres ih =>
    intro rest h
    obtain ⟨m, rfl, h1, h2⟩ := h r (by simp)
    rw [List.cons_append]
    simp only [connectLoop, if_neg h1, if_neg h2]
    exact ih rest (fun r2 hr2 => h r2 (by simp [hr2]))

/-- C3: `connect` either returns success with exactly one join attempt per
configured channel, in the listed order, every one succeeding, or returns
an error; on a join failure it fails fast — the attempts are the earlier
(successful) channels plus the failing one, with no further joins issued —
and a read failure or an `ERROR` command during the registration loop
makes it return an error with no joins at all. -/
theorem connect_spec (channels : List String) (env : ConnEnv) :
    (∀ attempts, connect channels env = .ok attempts →
      attempts = channels ∧ ∀ ch ∈ channels, env.join ch = none)
    ∧ (∀ e attempts, connect channels env = .err e attempts →
      attempts = [] ∨ ∃ pre ch post, channels = pre ++ ch :: post
        ∧ attempts = pre ++ [ch] ∧ (∀ p ∈ pre, env.join p = none)
        ∧ ∃ je, env.join ch = some je)
    ∧ (∀ pres e rest, env.connectErr = none → env.registerErr = none →
      env.reads = pres ++ .error e :: rest →
      (∀ r ∈ pres, ∃ m, r = .ok m ∧ m.command ≠ replyWelcome ∧ m.command ≠ "ERROR") →
      connect channels env = .err e [])
    ∧ (∀ pres m rest, env.connectErr = none → env.registerErr = none →
      env.reads = pres ++ .ok m :: rest →
      m.command = "ERROR" →
      (∀ r ∈ pres, ∃ m2, r = .ok m2 ∧ m2.command ≠ replyWelcome ∧ m2.command ≠ "ERROR") →
      connect channels env = .err ("received ERROR: " ++ m.rendered) []) := by
  refine ⟨?_, ?_, ?_, ?_⟩
  · intro attempts h
    cases hce : env.connectErr with
    | some e => simp [connect, hce] at h
    | none =>
      cases hre : env.registerErr with
      | some e => simp [connect, hce, hre] at h
      | none =>
        rw [connect, hce, hre] at h
        exact connectLoop_ok env.join channels env.reads attempts h
  · intro e attempts h
    cases hce : env.connectErr with
    | some e2 =>
      rw [connect, hce] at h
      cases h
      exact Or.inl rfl
    | none =>
      cases hre : env.registerErr with
      | some e2 =>
        rw [connect, hce, hre] at h
        cases h
        exact Or.inl rfl
      | none =>
        rw [connect, hce, hre] at h
        exact connectLoop_err env.join channels env.reads e attempts h
  · intro pres e rest hce hre hreads hpres
    rw [connect, hce, hre, hreads, connectLoop_skip env.join channels pres _ hpres]
    rfl
  · intro pres m rest hce hre hreads hcmd hpres
    rw [connect, hce, hre, hreads, connectLoop_skip env.join channels pres _ hpres]
    have hw : m.command ≠ replyWelcome := by rw [hcmd]; decide
    rw [connectLoop, if_neg hw, if_pos hcmd]

/-- Witness for C3: a welcome reply leads to a successful connect joining
the single configured channel; a read failure during registration makes
`connect` fail with no joins. -/
theorem connect_spec_witness :
    (connect ["#a"] ⟨none, none, [.ok ⟨"001", "w"⟩], fun _ => none⟩ = .ok ["#a"]
      ∧ ["#a"] = ["#a"]
      ∧ ∀ ch ∈ (["#a"] : List String), (fun (_ : String) => (none : Option String)) ch = none)
    ∧ connect ["#a"] ⟨none, none, [.error "eof"], fun _ => none⟩ = .err "eof" [] := by
  refine ⟨⟨by decide, (connect_spec ["#a"] ⟨none, none, [.ok ⟨"001", "w"⟩], fun _ => none⟩).1
    ["#a"] (by decide)⟩, ?_⟩
  exact (connect_spec ["#a"] ⟨none, none, [.error "eof"], fun _ => none⟩).2.2.1
    [] "eof" [] rfl rfl rfl (by simp)

/-! ## Config parsing: the scanner loop and the key map. -/

theorem parseLines_cons (l : String) (rest : List String) (m : List (String × String)) :
    parseLines (l :: rest) m
      = match parseLine m l with
        | .error e => .error e
        | .ok m2 => parseLines rest m2 := rfl

theorem parseLines_cons_err (l : String) (rest : List String)
    (m : List (String × String)) (e : String) (h : parseLine m l = .error e) :
    parseLines (l :: rest) m = .error e := by
  simp only [parseLines_cons, h]

theorem parseLines_cons_ok (l : String) (rest : List String)
    (m m2 : List (String × String)) (h : parseLine m l = .ok m2) :
    parseLines (l :: rest) m = parseLines rest m2 := by
  simp only [parseLines_cons, h]

theorem parseLines_append_err (as bs : List String) :
    ∀ (m : List (String × String)) (e : String), parseLines as m = .error e →
    parseLines (as ++ bs) m = .error e := by
  induction as with
  | nil => intro m e h; simp [parseLines] at h
  | cons l as ih =>
    intro m e h
    rw [List.cons_append]
    cases hp : parseLine m l with
    | error e2 =>
      have h2 := (parseLines_cons_err l as m e2 hp).symm.trans h
      injection h2 with h2
      rw [← h2]
      exact parseLines_cons_err l (as ++ bs) m e2 hp
    | ok m2 =>
      rw [parseLines_cons_ok l (as ++ bs) m m2 hp]
      rw [parseLines_cons_ok l as m m2 hp] at h
      exact ih m2 e h

theorem parseLines_append_ok (as bs : List String) :
    ∀ (m mA : List (String × String)), parseLines as m = .ok mA →
    parseLines (as ++ bs) m = parseLines bs mA := by
  induction as with
  | nil =>
    intro m mA h
    simp only [parseLines, Except.ok.injEq] at h
    rw [List.nil_append, h]
  | cons l as ih =>
    intro m mA h
    rw [List.cons_append]
    cases hp : parseLine m l with
    | error e2 =>
      rw [parseLines_cons_err l as m e2 hp] at h
      exact Except.noConfusion h
    | ok m2 =>
      rw [parseLines_cons_ok l (as ++ bs) m m2 hp]
      rw [parseLines_cons_ok l as m m2 hp] at h
      exact ih m2 mA h

theorem parseConfig_eq_configFromMap (lines : List String)
    (m : List (String × String)) (h : parseLines lines [] = .ok m) :
    parseConfig lines = configFromMap m := by
  simp only [parseConfig, h]

theorem parseConfig_eq_error (lines : List String) (e : String)
    (h : parseLines lines [] = .error e) : parseConfig lines = .error e := by
  simp only [parseConfig, h]

theorem parseLine_kv (m : List (String × String)) (line k v : String)
    (h : classifyLine line = .kv k v) :
    parseLine m line
      = (if hasKey m k then .error ("duplicate key: " ++ k) else .ok (m ++ [(k, v)])) := by
  simp [parseLine, h]

theorem parseLine_ok_shape (m : List (String × String)) (l : String)
    (m2 : List (String × String)) (h : parseLine m l = .ok m2) :
    m2 = m ∨ ∃ key val, classifyLine l = .kv key val ∧ hasKey m key = false
      ∧ m2 = m ++ [(key, val)] := by
  cases hcl : classifyLine l with
  | skip =>
    simp only [parseLine, hcl, Except.ok.injEq] at h
    exact Or.inl h.symm
  | malformed t => simp [parseLine, hcl] at h
  | blankKey t => simp [parseLine, hcl] at h
  | kv key val =>
    rw [parseLine_kv m l key val hcl] at h
    by_cases hk : hasKey m key = true
    · rw [if_pos hk] at h; exact Except.noConfusion h
    · rw [if_neg hk] at h
      injection h with h
      exact Or.inr ⟨key, val, rfl, by simpa using hk, h.symm⟩

theorem hasKey_append (m : List (String × String)) (k2 v2 q : String) :
    hasKey (m ++ [(k2, v2)]) q = (hasKey m q || (k2 == q)) := by
  simp [hasKey, List.any_append]

theorem parseLines_hasKey_mono (k : String) (ls : List String) :
    ∀ m m2, parseLines ls m = .ok m2 → hasKey m k = true → hasKey m2 k = true := by
  induction ls with
  | nil =>
    intro m m2 h hk
    simp only [parseLines, Except.ok.injEq] at h
    rw [← h]; exact hk
  | cons l ls ih =>
    intro m m2 h hk
    cases hp : parseLine m l with
    | error e =>
      rw [parseLines_cons_err l ls m e hp] at h
      exact Except.noConfusion h
    | ok m1 =>
      rw [parseLines_cons_ok l ls m m1 hp] at h
      refine ih m1 m2 h ?_
      rcases parseLine_ok_shape m l m1 hp with rfl | ⟨key, val, _, _, rfl⟩
      · exact hk
      · rw [hasKey_append, hk]; rfl

theorem parseLines_kvline_hasKey (k : String) (ls : List String) :
    ∀ m m2 l v, l ∈ ls → classifyLine l = .kv k v → parseLines ls m = .ok m2 →
    hasKey m2 k = true := by
  induction ls with
  | nil => intro m m2 l v hl; exact absurd hl (List.not_mem_nil l)
  | cons l2 ls ih =>
    intro m m2 l v hl hcl h
    cases hp : parseLine m l2 with
    | error e =>
      rw [parseLines_cons_err l2 ls m e hp] at h
      exact Except.noConfusion h
    | ok m1 =>
      rw [parseLines_cons_ok l2 ls m m1 hp] at h
      rcases List.mem_cons.1 hl with rfl | hl
      · rw [parseLine_kv m l k v hcl] at hp
        by_cases hk : hasKey m k = true
        · rw [if_pos hk] at hp; exact Except.noConfusion hp
        · rw [if_neg hk] at hp
          injection hp with hp
          refine parseLines_hasKey_mono k ls m1 m2 h ?_
          rw [← hp, hasKey_append, beq_self_eq_true]
          simp
      · exact ih m1 m2 l v hl hcl h

/-- A file holding two well-formed lines with the same key never parses:
either an earlier line already fails, or the second occurrence trips the
duplicate-key check. -/
theorem parseLines_duplicate_key (xs : List String) (l1 : String) (ys : List String)
    (l2 : String) (zs : List String) (k v1 v2 : String)
    (h1 : classifyLine l1 = .kv k v1) (h2 : classifyLine l2 = .kv k v2) :
    ∀ m0, ∃ e, parseLines (xs ++ l1 :: (ys ++ l2 :: zs)) m0 = .error e := by
  intro m0
  cases hxs : parseLines xs m0 with
  | error e => exact ⟨e, parseLines_append_err xs _ m0 e hxs⟩
  | ok mA =>
    cases hp : parseLine mA l1 with
    | error e =>
      exact ⟨e, by rw [parseLines_append_ok xs _ m0 mA hxs,
        parseLines_cons_err l1 _ mA e hp]⟩
    | ok mB =>
      have hkB : hasKey mB k = true := by
        rw [parseLine_kv mA l1 k v1 h1] at hp
        by_cases hk : hasKey mA k = true
        · rw [if_pos hk] at hp; exact Except.noConfusion hp
        · rw [if_neg hk] at hp
          injection hp with hp
          rw [← hp, hasKey_append, beq_self_eq_true]
          simp
      cases hys : parseLines ys mB with
      | error e =>
        exact ⟨e, by rw [parseLines_append_ok xs _ m0 mA hxs,
          parseLines_cons_ok l1 _ mA mB hp, parseLines_append_err ys _ mB e hys]⟩
      | ok mC =>
        have hkC : hasKey mC k = true := parseLines_hasKey_mono k ys mB mC hys hkB
        refine ⟨"duplicate key: " ++ k, ?_⟩
        rw [parseLines_append_ok xs _ m0 mA hxs, parseLines_cons_ok l1 _ mA mB hp,
          parseLines_append_ok ys _ mB mC hys]
        exact parseLines_cons_err l2 zs mC _ (by rw [parseLine_kv mC l2 k v2 h2, if_pos hkC])

/-! ## Config building from the key map: rejection lemmas. -/

theorem parseChannels_bad (pieces : List String) :
    ∀ acc, (∃ p ∈ pieces, badChannelPiece p = true) →
    ∃ e, parseChannels pieces acc = .error e := by
  induction pieces with
  | nil => intro acc h; simp at h
  | cons c0 rest ih =>
    intro acc h
    cases hd : (trimS c0).data with
    | nil =>
      obtain ⟨p, hp, hbad⟩ := h
      rcases List.mem_cons.1 hp with rfl | hp
      · simp only [badChannelPiece, hd] at hbad
        exact Bool.noConfusion hbad
      · have hstep : parseChannels (c0 :: rest) acc = parseChannels rest acc := by
          simp only [parseChannels, hd]
        rw [hstep]
        exact ih acc ⟨p, hp, hbad⟩
    | cons c cs =>
      by_cases hc : c = '#'
      · have hstep : parseChannels (c0 :: rest) acc
            = parseChannels rest (acc ++ [trimS c0]) := by
          simp only [parseChannels, hd, if_pos hc]
        rw [hstep]
        obtain ⟨p, hp, hbad⟩ := h
        rcases List.mem_cons.1 hp with rfl | hp
        · simp [badChannelPiece, hd, hc] at hbad
        · exact ih _ ⟨p, hp, hbad⟩
      · have hstep : parseChannels (c0 :: rest) acc
            = .error ("malformed channel name: " ++ trimS c0) := by
          simp only [parseChannels, hd, if_neg hc]
        exact ⟨_, hstep⟩

theorem parseChannels_all_blank (pieces : List String) :
    ∀ acc, (∀ p ∈ pieces, trimS p = "") → parseChannels pieces acc = .ok acc := by
  induction pieces with
  | nil => intro acc _; rfl
  | cons c0 rest ih =>
    intro acc h
    have h0 : trimS c0 = "" := h c0 (by simp)
    have hd : (trimS c0).data = [] := by rw [h0]
    have hstep : parseChannels (c0 :: rest) acc = parseChannels rest acc := by
      simp only [parseChannels, hd]
    rw [hstep]
    exact ih acc (fun p hp => h p (by simp [hp]))

theorem configFromMap_nick_missing (m : List (String × String))
    (h : getVal m "nick" = "") : ∃ e, configFromMap m = .error e := by
  cases hc : parseChannels (channelPieces m) [] with
  | error e => exact ⟨e, by rw [configFromMap, hc]⟩
  | ok chans =>
    by_cases hch : chans = []
    · exact ⟨"you must specify at least one channel",
        by rw [configFromMap, hc]; simp [hch]⟩
    · exact ⟨"you must specify a nick", by rw [configFromMap, hc]; simp [hch, h]⟩

theorem configFromMap_host_missing (m : List (String × String))
    (h : getVal m "server-host" = "") : ∃ e, configFromMap m = .error e := by
  cases hc : parseChannels (channelPieces m) [] with
  | error e => exact ⟨e, by rw [configFromMap, hc]⟩
  | ok chans =>
    by_cases hch : chans = []
    · exact ⟨"you must specify at least one channel",
        by rw [configFromMap, hc]; simp [hch]⟩
    · by_cases hn : getVal m "nick" = ""
      · exact ⟨"you must specify a nick", by rw [configFromMap, hc]; simp [hch, hn]⟩
      · exact ⟨"you must specify a server-host",
          by rw [configFromMap, hc]; simp [hch, hn, h]⟩

theorem configFromMap_port_bad (m : List (String × String)) (pe : String)
    (h : goParseInt (getVal m "server-port") = .error pe) :
    ∃ e, configFromMap m = .error e := by
  cases hc : parseChannels (channelPieces m) [] with
  | error e => exact ⟨e, by rw [configFromMap, hc]⟩
  | ok chans =>
    by_cases hch : chans = []
    · exact ⟨"you must specify at least one channel",
        by rw [configFromMap, hc]; simp [hch]⟩
    · by_cases hn : getVal m "nick" = ""
      · exact ⟨"you must specify a nick", by rw [configFromMap, hc]; simp [hch, hn]⟩
      · by_cases hh : getVal m "server-host" = ""
        · exact ⟨"you must specify a server-host",
            by rw [configFromMap, hc]; simp [hch, hn, hh]⟩
        · exact ⟨"invalid server-port: " ++ pe,
            by rw [configFromMap, hc]; simp [hch, hn, hh, h]⟩

theorem configFromMap_channel_bad (m : List (String × String)) (piece : String)
    (hmem : piece ∈ channelPieces m) (hbad : badChannelPiece piece = true) :
    ∃ e, configFromMap m = .error e := by
  obtain ⟨e, he⟩ := parseChannels_bad (channelPieces m) [] ⟨piece, hmem, hbad⟩
  exact ⟨e, by rw [configFromMap, he]⟩

theorem configFromMap_channels_blank (m : List (String × String))
    (h : ∀ p ∈ channelPieces m, trimS p = "") : ∃ e, configFromMap m = .error e := by
  have he := parseChannels_all_blank (channelPieces m) [] h
  exact ⟨"you must specify at least one channel", by rw [configFromMap, he]; simp⟩

/-- C8: `parseConfig` accepts the four-line file of the claim, yielding the
two channels in listed order; and it rejects a file with a duplicate key,
a parsed file whose nick or server-host is missing or empty, one whose
server-port does not parse as an integer, one with a channel piece not
starting with `#`, and one whose channel list comes out empty. -/
theorem parseConfig_spec :
    (parseConfig ["channels=#a,#b", "nick=bot", "server-host=irc.example.com",
        "server-port=6667"]
      = .ok ⟨["#a", "#b"], "bot", "irc.example.com", 6667⟩)
    ∧ (∀ xs l1 ys l2 zs k v1 v2, classifyLine l1 = .kv k v1 → classifyLine l2 = .kv k v2 →
        ∃ e, parseConfig (xs ++ l1 :: (ys ++ l2 :: zs)) = .error e)
    ∧ (∀ lines m, parseLines lines [] = .ok m → getVal m "nick" = "" →
        ∃ e, parseConfig lines = .error e)
    ∧ (∀ lines m, parseLines lines [] = .ok m → getVal m "server-host" = "" →
        ∃ e, parseConfig lines = .error e)
    ∧ (∀ lines m pe, parseLines lines [] = .ok m →
        goParseInt (getVal m "server-port") = .error pe →
        ∃ e, parseConfig lines = .error e)
    ∧ (∀ lines m piece, parseLines lines [] = .ok m → piece ∈ channelPieces m →
        badChannelPiece piece = true → ∃ e, parseConfig lines = .error e)
    ∧ (∀ lines m, parseLines lines [] = .ok m → (∀ p ∈ channelPieces m, trimS p = "") →
        ∃ e, parseConfig lines = .error e) := by
  refine ⟨by decide, ?_, ?_, ?_, ?_, ?_, ?_⟩
  · intro xs l1 ys l2 zs k v1 v2 h1 h2
    obtain ⟨e, he⟩ := parseLines_duplicate_key xs l1 ys l2 zs k v1 v2 h1 h2 []
    exact ⟨e, parseConfig_eq_error _ e he⟩
  · intro lines m hm hn
    obtain ⟨e, he⟩ := configFromMap_nick_missing m hn
    exact ⟨e, by rw [parseConfig_eq_configFromMap lines m hm, he]⟩
  · intro lines m hm hh
    obtain ⟨e, he⟩ := configFromMap_host_missing m hh
    exact ⟨e, by rw [parseConfig_eq_configFromMap lines m hm, he]⟩
  · intro lines m pe hm hp
    obtain ⟨e, he⟩ := configFromMap_port_bad m pe hp
    exact ⟨e, by rw [parseConfig_eq_configFromMap lines m hm, he]⟩
  · intro lines m piece hm hmem hbad
    obtain ⟨e, he⟩ := configFromMap_channel_bad m piece hmem hbad
    exact ⟨e, by rw [parseConfig_eq_configFromMap lines m hm, he]⟩
  · intro lines m hm hbl
    obtain ⟨e, he⟩ := configFromMap_channels_blank m hbl
    exact ⟨e, by rw [parseConfig_eq_configFromMap lines m hm, he]⟩

/-- Witness for C8: concrete rejected files — duplicate `nick`, missing
nick, empty server-host, non-integer server-port, channel without `#`,
and empty channel list. -/
theorem parseConfig_spec_witness :
    (∃ e, parseConfig ["nick=a", "nick=b"] = .error e)
    ∧ (∃ e, parseConfig ["channels=#a", "server-host=h", "server-port=1"] = .error e)
    ∧ (∃ e, parseConfig ["channels=#a", "nick=bot", "server-host=", "server-port=1"]
        = .error e)
    ∧ (∃ e, parseConfig ["channels=#a", "nick=bot", "server-host=h", "server-port=x"]
        = .error e)
    ∧ (∃ e, parseConfig ["channels=a", "nick=bot", "server-host=h", "server-port=1"]
        = .error e)
    ∧ (∃ e, parseConfig ["channels=", "nick=bot", "server-host=h", "server-port=1"]
        = .error e) := by
  refine ⟨?_, ?_, ?_, ?_, ?_, ?_⟩
  · exact parseConfig_spec.2.1 [] "nick=a" [] "nick=b" [] "nick" "a" "b"
      (by decide) (by decide)
  · exact parseConfig_spec.2.2.1 ["channels=#a", "server-host=h", "server-port=1"]
      [("channels", "#a"), ("server-host", "h"), ("server-port", "1")]
      (by decide) (by decide)
  · exact parseConfig_spec.2.2.2.1
      ["channels=#a", "nick=bot", "server-host=", "server-port=1"]
      [("channels", "#a"), ("nick", "bot"), ("server-host", ""), ("server-port", "1")]
      (by decide) (by decide)
  · exact parseConfig_spec.2.2.2.2.1
      ["channels=#a", "nick=bot", "server-host=h", "server-port=x"]
      [("channels", "#a"), ("nick", "bot"), ("server-host", "h"), ("server-port", "x")]
      "invalid syntax" (by decide) (by decide)
  · exact parseConfig_spec.2.2.2.2.2.1
      ["channels=a", "nick=bot", "server-host=h", "server-port=1"]
      [("channels", "a"), ("nick", "bot"), ("server-host", "h"), ("server-port", "1")]
      "a" (by decide) (by decide) (by decide)
  · exact parseConfig_spec.2.2.2.2.2.2
      ["channels=", "nick=bot", "server-host=h", "server-port=1"]
      [("channels", ""), ("nick", "bot"), ("server-host", "h"), ("server-port", "1")]
      (by decide) (by decide)

/-! ## Unrecognized keys: the key map only matters through the four
recognized keys. -/

theorem hasKey_cons (p : String × String) (m : List (String × String)) (q : String) :
    hasKey (p :: m) q = ((p.1 == q) || hasKey m q) := by
  simp [hasKey]

theorem getVal_cons (p : String × String) (m : List (String × String)) (q : String) :
    getVal (p :: m) q = (if p.1 == q then p.2 else getVal m q) := by
  simp only [getVal, List.find?]
  cases h : (p.1 == q) <;> simp [h]

theorem getVal_not_hasKey (m : List (String × String)) (q : String) :
    hasKey m q = false → getVal m q = "" := by
  induction m with
  | nil => intro _; rfl
  | cons p m ih =>
    intro h
    rw [hasKey_cons, Bool.or_eq_false_iff] at h
    rw [getVal_cons, if_neg (by simp [h.1])]
    exact ih h.2

theorem getVal_append (m : List (String × String)) (k2 v2 q : String) :
    getVal (m ++ [(k2, v2)]) q
      = (if hasKey m q then getVal m q else if k2 == q then v2 else "") := by
  induction m with
  | nil => cases h : (k2 == q) <;> simp [getVal_cons, hasKey, getVal, h]
  | cons p m ih =>
    rw [List.cons_append, getVal_cons, getVal_cons, hasKey_cons, ih]
    cases h : (p.1 == q) <;> simp [h]

theorem lineKey_of_kv (l k v : String) (h : classifyLine l = .kv k v) :
    lineKey l = some k := by simp [lineKey, h]

theorem parseLines_fresh_key (k : String) (ls : List String) :
    ∀ m m2, (∀ l ∈ ls, lineKey l ≠ some k) → hasKey m k = false →
    parseLines ls m = .ok m2 → hasKey m2 k = false := by
  induction ls with
  | nil =>
    intro m m2 _ hk h
    simp only [parseLines, Except.ok.injEq] at h
    rw [← h]; exact hk
  | cons l ls ih =>
    intro m m2 hfresh hk h
    cases hp : parseLine m l with
    | error e =>
      rw [parseLines_cons_err l ls m e hp] at h
      exact Except.noConfusion h
    | ok m1 =>
      rw [parseLines_cons_ok l ls m m1 hp] at h
      refine ih m1 m2 (fun l2 hl2 => hfresh l2 (by simp [hl2])) ?_ h
      rcases parseLine_ok_shape m l m1 hp with rfl | ⟨key, val, hcl, _, rfl⟩
      · exact hk
      · have hkey : key ≠ k := by
          intro hkk
          exact hfresh l (by simp) (by rw [lineKey_of_kv l key val hcl, hkk])
        rw [hasKey_append, hk, Bool.false_or]
        exact beq_eq_false_iff_ne.2 hkey

theorem mapAgreesExcept_append (k k2 v2 : String) (m1 m2 : List (String × String))
    (hR : mapAgreesExcept k m1 m2) :
    mapAgreesExcept k (m1 ++ [(k2, v2)]) (m2 ++ [(k2, v2)]) := by
  intro q hq
  rw [hasKey_append, hasKey_append, getVal_append, getVal_append,
    (hR q hq).1, (hR q hq).2]
  exact ⟨rfl, rfl⟩

theorem mapAgreesExcept_self_append (k v : String) (m : List (String × String)) :
    mapAgreesExcept k (m ++ [(k, v)]) m := by
  intro q hq
  have hkq : (k == q) = false := beq_eq_false_iff_ne.2 (Ne.symm hq)
  constructor
  · rw [hasKey_append, hkq, Bool.or_false]
  · rw [getVal_append, hkq]
    by_cases h : hasKey m q = true
    · rw [if_pos h]
    · rw [if_neg h, if_neg (by simp)]
      exact (getVal_not_hasKey m q (by simpa using h)).symm

theorem parseLines_agree (k : String) (ys : List String) :
    ∀ m1 m2, mapAgreesExcept k m1 m2 →
    (∀ l ∈ ys, lineKey l ≠ some k) →
    (∃ e, parseLines ys m1 = .error e ∧ parseLines ys m2 = .error e)
    ∨ (∃ m1b m2b, parseLines ys m1 = .ok m1b ∧ parseLines ys m2 = .ok m2b
        ∧ mapAgreesExcept k m1b m2b) := by
  induction ys with
  | nil => intro m1 m2 hR _; exact Or.inr ⟨m1, m2, rfl, rfl, hR⟩
  | cons l ys ih =>
    intro m1 m2 hR hfresh
    cases hcl : classifyLine l with
    | skip =>
      have e1 : parseLine m1 l = .ok m1 := by simp [parseLine, hcl]
      have e2 : parseLine m2 l = .ok m2 := by simp [parseLine, hcl]
      rw [parseLines_cons_ok l ys m1 m1 e1, parseLines_cons_ok l ys m2 m2 e2]
      exact ih m1 m2 hR (fun l2 hl2 => hfresh l2 (by simp [hl2]))
    | malformed t =>
      refine Or.inl ⟨"malformed line: " ++ t, ?_, ?_⟩ <;>
        exact parseLines_cons_err _ _ _ _ (by simp [parseLine, hcl])
    | blankKey t =>
      refine Or.inl ⟨"key is blank: " ++ t, ?_, ?_⟩ <;>
        exact parseLines_cons_err _ _ _ _ (by simp [parseLine, hcl])
    | kv k2 v2 =>
      have hk2 : k2 ≠ k := by
        intro hkk
        exact hfresh l (by simp) (by rw [lineKey_of_kv l k2 v2 hcl, hkk])
      have hhk := (hR k2 hk2).1
      by_cases hdup : hasKey m2 k2 = true
      · refine Or.inl ⟨"duplicate key: " ++ k2, ?_, ?_⟩
        · exact parseLines_cons_err _ _ _ _
            (by rw [parseLine_kv m1 l k2 v2 hcl, if_pos (hhk.trans hdup)])
        · exact parseLines_cons_err _ _ _ _
            (by rw [parseLine_kv m2 l k2 v2 hcl, if_pos hdup])
      · rw [parseLines_cons_ok l ys m1 (m1 ++ [(k2, v2)])
            (by rw [parseLine_kv m1 l k2 v2 hcl, if_neg (by rw [hhk]; exact hdup)]),
          parseLines_cons_ok l ys m2 (m2 ++ [(k2, v2)])
            (by rw [parseLine_kv m2 l k2 v2 hcl, if_neg hdup])]
        exact ih _ _ (mapAgreesExcept_append k k2 v2 m1 m2 hR)
          (fun l2 hl2 => hfresh l2 (by simp [hl2]))

theorem configFromMap_congr (k : String) (m1 m2 : List (String × String))
    (hR : mapAgreesExcept k m1 m2) (hk : k ∉ recognizedKeys) :
    configFromMap m1 = configFromMap m2 := by
  simp only [recognizedKeys, List.mem_cons, List.not_mem_nil, or_false, not_or] at hk
  have h1 := (hR "channels" (fun hh => hk.1 hh.symm)).2
  have h2 := (hR "nick" (fun hh => hk.2.1 hh.symm)).2
  have h3 := (hR "server-host" (fun hh => hk.2.2.1 hh.symm)).2
  have h4 := (hR "server-port" (fun hh => hk.2.2.2 hh.symm)).2
  simp only [configFromMap, channelPieces, h1, h2, h3, h4]

/-- C10 (amended): an added well-formed `key=value` line whose key is not
one of the four recognized keys and does not occur as the key of any other
line of the file is silently ignored: parsing the file with the line
inserted anywhere gives exactly the same result — the same config on
success, and the same error otherwise. -/
theorem parseConfig_ignores_fresh_unknown_key (xs ys : List String) (l k : String)
    (hl : lineKey l = some k)
    (hk : k ∉ recognizedKeys)
    (hfresh : ∀ l2 ∈ xs ++ ys, lineKey l2 ≠ some k) :
    parseConfig (xs ++ l :: ys) = parseConfig (xs ++ ys) := by
  obtain ⟨v, hcl⟩ : ∃ v, classifyLine l = .kv k v := by
    rw [lineKey] at hl
    cases hcl2 : classifyLine l with
    | kv k2 v2 =>
      rw [hcl2] at hl
      injection hl with hl
      exact ⟨v2, by rw [hl]⟩
    | skip => rw [hcl2] at hl; exact Option.noConfusion hl
    | malformed t => rw [hcl2] at hl; exact Option.noConfusion hl
    | blankKey t => rw [hcl2] at hl; exact Option.noConfusion hl
  have hfxs : ∀ l2 ∈ xs, lineKey l2 ≠ some k := fun l2 h2 => hfresh l2 (by simp [h2])
  have hfys : ∀ l2 ∈ ys, lineKey l2 ≠ some k := fun l2 h2 => hfresh l2 (by simp [h2])
  cases hxs : parseLines xs [] with
  | error e =>
    rw [parseConfig_eq_error (xs ++ l :: ys) e (parseLines_append_err xs (l :: ys) [] e hxs),
      parseConfig_eq_error (xs ++ ys) e (parseLines_append_err xs ys [] e hxs)]
  | ok mA =>
    have hkA : hasKey mA k = false := parseLines_fresh_key k xs [] mA hfxs rfl hxs
    have hstep : parseLine mA l = .ok (mA ++ [(k, v)]) := by
      rw [parseLine_kv mA l k v hcl, if_neg (by rw [hkA]; exact Bool.false_ne_true)]
    have hL : parseLines (xs ++ l :: ys) [] = parseLines ys (mA ++ [(k, v)]) := by
      rw [parseLines_append_ok xs (l :: ys) [] mA hxs, parseLines_cons_ok l ys mA _ hstep]
    have hR0 : parseLines (xs ++ ys) [] = parseLines ys mA :=
      parseLines_append_ok xs ys [] mA hxs
    rcases parseLines_agree k ys (mA ++ [(k, v)]) mA
        (mapAgreesExcept_self_append k v mA) hfys with
      ⟨e, he1, he2⟩ | ⟨m1b, m2b, h1b, h2b, hRb⟩
    · rw [parseConfig_eq_error _ e (hL.trans he1), parseConfig_eq_error _ e (hR0.trans he2)]
    · rw [parseConfig_eq_configFromMap _ m1b (hL.trans h1b),
        parseConfig_eq_configFromMap _ m2b (hR0.trans h2b)]
      exact configFromMap_congr k m1b m2b hRb hk

/-- Witness for the amended C10: inserting `foo=1` into a well-formed file
leaves the parse result unchanged. -/
theorem parseConfig_ignores_fresh_unknown_key_witness :
    parseConfig ["channels=#a", "nick=bot", "foo=1", "server-host=h", "server-port=1"]
      = parseConfig ["channels=#a", "nick=bot", "server-host=h", "server-port=1"] :=
  parseConfig_ignores_fresh_unknown_key ["channels=#a", "nick=bot"]
    ["server-host=h", "server-port=1"] "foo=1" "foo"
    (by decide) (by decide) (by decide)

end Umbled
